import Mathlib

/-!
Verification of the Google BLEU (GLEU) metric of `micahcarroll/datasets`
(`src/metrics/google_bleu/google_bleu.py`).

The repository file `google_bleu.py` contains the wrapper
`GoogleBleu._compute` (lines 207-225): in sentence mode it zips
`predictions` with `references` and scores each pair with the library
function `sentence_gleu`; in corpus mode it calls the library function
`corpus_gleu` on the two lists.  The scoring functions themselves are not
part of the repository source, so they are modelled here from the spec
(sections 3 and 4.1-4.3): n-gram extraction over an order range, per
reference `matching_count = sum of min(hyp_count, ref_count)` and
`total_count = max(hyp_total, ref_total)`, best-reference selection by the
score `min(recall, precision)` (first reference wins ties, the
deterministic rule section 9 suggests), and corpus aggregation by summing
the chosen counts.  Scores are rationals (`ℚ`).
-/

set_option autoImplicit false

variable {α : Type} [DecidableEq α]

/-- Modelled from the spec: the N-gram Extractor of section 4.1 at a single
order `n` (missing from `src/`, the repository delegates to a library).
Slides a window of width `n` across the sequence with stride 1; a sequence
shorter than `n` contributes no n-grams. -/
def ngrams (s : List α) (n : ℕ) : List (List α) :=
  (List.range (s.length + 1 - n)).map fun i => (s.drop i).take n

/-- Modelled from the spec: the N-gram Extractor of section 4.1 over the
inclusive order range `[minl, maxl]`; the multiset of n-grams is represented
as a list with multiplicity. -/
def everygrams (s : List α) (minl maxl : ℕ) : List (List α) :=
  (List.range' minl (maxl + 1 - minl)).flatMap (ngrams s)

/-- Modelled from the spec: `matching_count` of section 3, the sum over all
n-grams `g` of `min (hyp_count g) (ref_count g)`.  The sum ranges over the
n-grams occurring in either side; any other `g` contributes `min 0 0 = 0`.
Stated for any type of element so the counting lemmas below apply uniformly. -/
def matchingCount {β : Type} [DecidableEq β] (hypNg refNg : List β) : ℕ :=
  ∑ g ∈ (hypNg ++ refNg).toFinset, min (hypNg.count g) (refNg.count g)

/-- Modelled from the spec: a ratio whose denominator is `0` is treated as
`0`, not an error (sections 4.2 and 7). -/
def safeDiv (num den : ℕ) : ℚ :=
  if den = 0 then 0 else (num : ℚ) / den

/-- Modelled from the spec: the per-reference score of section 4.2,
`min (recall, precision)` where `recall = matching_count / ref_total` and
`precision = matching_count / hyp_total`, computed on already extracted
n-gram multisets. -/
def refScore (hypNg refNg : List (List α)) : ℚ :=
  min (safeDiv (matchingCount hypNg refNg) refNg.length)
      (safeDiv (matchingCount hypNg refNg) hypNg.length)

/-- Modelled from the spec: the max-by-key reduction of section 9 used for
best-reference selection; the first element attaining the maximal key wins
(the deterministic tie-break the spec suggests). -/
def pickBest {β : Type} (f : β → ℚ) : List β → Option β
  | [] => none
  | x :: xs => some (xs.foldl (fun b y => if f b < f y then y else b) x)

/-- Modelled from the spec: the Sentence Scorer of section 4.2 (missing from
`src/`, the repository calls the library function `sentence_gleu`): extract
the hypothesis n-grams once, pick the best-fitting reference, return its
score. -/
def sentence_gleu (references : List (List α)) (hypothesis : List α)
    (minl maxl : ℕ) : ℚ :=
  let hypNg := everygrams hypothesis minl maxl
  match pickBest (fun r => refScore hypNg (everygrams r minl maxl)) references with
  | none => 0
  | some r => refScore hypNg (everygrams r minl maxl)

/-- Modelled from the spec: the Match Statistics `(matching_count,
total_count)` of the reference the Corpus Aggregator of section 4.3 selects
for one `(hypothesis, references)` pair, with `total_count =
max (hyp_total, ref_total)` per section 3; an empty reference list
contributes `(0, 0)`. -/
def pairCounts (references : List (List α)) (hypothesis : List α)
    (minl maxl : ℕ) : ℕ × ℕ :=
  let hypNg := everygrams hypothesis minl maxl
  match pickBest (fun r => refScore hypNg (everygrams r minl maxl)) references with
  | none => (0, 0)
  | some r =>
    (matchingCount hypNg (everygrams r minl maxl),
     max hypNg.length (everygrams r minl maxl).length)

/-- Modelled from the spec: the Corpus Aggregator of section 4.3 (missing
from `src/`, the repository calls the library function `corpus_gleu`):
accumulate the chosen reference's `matching_count` into `M` and its
`total_count` into `T` across all pairs; final score `M / T`, defined as `0`
when `T = 0`. -/
def corpus_gleu (list_of_references : List (List (List α)))
    (hypotheses : List (List α)) (minl maxl : ℕ) : ℚ :=
  let acc := (hypotheses.zip list_of_references).foldl
    (fun MT pr =>
      (MT.1 + (pairCounts pr.2 pr.1 minl maxl).1,
       MT.2 + (pairCounts pr.2 pr.1 minl maxl).2)) ((0, 0) : ℕ × ℕ)
  if acc.2 = 0 then 0 else (acc.1 : ℚ) / acc.2

/-- The closed form the spec states for the sentence score: the maximum over
the references of `min (recall, precision)` (section 4.2).  All per-reference
scores are nonnegative, so for a non-empty reference list folding `max` from
`0` is that maximum. -/
def specSentenceScore (references : List (List α)) (hypothesis : List α)
    (minl maxl : ℕ) : ℚ :=
  (references.map fun r =>
    refScore (everygrams hypothesis minl maxl) (everygrams r minl maxl)).foldr max 0

/-- Embeds `GoogleBleu._compute` (`src/metrics/google_bleu/google_bleu.py`,
lines 207-225).  In sentence mode the source zips `predictions` with
`references` and maps `sentence_gleu` over the pairs; in corpus mode it
calls `corpus_gleu`.  The `Except` codomain records raised errors: the
source performs no validation and has no raise statement, so every branch
returns `Except.ok`. -/
def GoogleBleu_compute (predictions : List (List α))
    (references : List (List (List α))) (sentence_level : Bool)
    (min_len max_len : ℕ) : Except String (List ℚ ⊕ ℚ) :=
  if sentence_level then
    Except.ok (Sum.inl ((predictions.zip references).map fun pr =>
      sentence_gleu pr.2 pr.1 min_len max_len))
  else
    Except.ok (Sum.inr (corpus_gleu references predictions min_len max_len))

/-- Restatement of `sentence_gleu` with the intermediate `let` reduced, for
rewriting. -/
lemma sentence_gleu_eq (references : List (List α)) (hypothesis : List α)
    (minl maxl : ℕ) :
    sentence_gleu references hypothesis minl maxl =
      match pickBest (fun r => refScore (everygrams hypothesis minl maxl)
          (everygrams r minl maxl)) references with
      | none => 0
      | some r => refScore (everygrams hypothesis minl maxl) (everygrams r minl maxl) :=
  rfl

/-- Restatement of `pairCounts` with the intermediate `let` reduced, for
rewriting. -/
lemma pairCounts_eq (references : List (List α)) (hypothesis : List α)
    (minl maxl : ℕ) :
    pairCounts references hypothesis minl maxl =
      match pickBest (fun r => refScore (everygrams hypothesis minl maxl)
          (everygrams r minl maxl)) references with
      | none => (0, 0)
      | some r =>
        (matchingCount (everygrams hypothesis minl maxl) (everygrams r minl maxl),
         max (everygrams hypothesis minl maxl).length (everygrams r minl maxl).length) :=
  rfl

/-- A sentence score against a single reference is that reference's score. -/
lemma sentence_gleu_singleton (r : List α) (hypothesis : List α) (minl maxl : ℕ) :
    sentence_gleu [r] hypothesis minl maxl =
      refScore (everygrams hypothesis minl maxl) (everygrams r minl maxl) :=
  rfl

lemma toFinset_sum_count {β : Type} [DecidableEq β] (l : List β) :
    ∑ a ∈ l.toFinset, l.count a = l.length := by
  simpa using Multiset.toFinset_sum_count_eq (l : Multiset β)

lemma sum_count_of_subset {β : Type} [DecidableEq β] (l : List β) (s : Finset β)
    (h : l.toFinset ⊆ s) : ∑ a ∈ s, l.count a = l.length := by
  rw [← toFinset_sum_count l]
  refine (Finset.sum_subset h ?_).symm
  intro a _ ha
  exact List.count_eq_zero.mpr fun hmem => ha (List.mem_toFinset.mpr hmem)

lemma matchingCount_le_left {β : Type} [DecidableEq β] (hypNg refNg : List β) :
    matchingCount hypNg refNg ≤ hypNg.length := by
  rw [matchingCount,
    ← sum_count_of_subset hypNg ((hypNg ++ refNg).toFinset)
      (by rw [List.toFinset_append]; exact Finset.subset_union_left)]
  exact Finset.sum_le_sum fun g _ => min_le_left _ _

lemma matchingCount_le_right {β : Type} [DecidableEq β] (hypNg refNg : List β) :
    matchingCount hypNg refNg ≤ refNg.length := by
  rw [matchingCount,
    ← sum_count_of_subset refNg ((hypNg ++ refNg).toFinset)
      (by rw [List.toFinset_append]; exact Finset.subset_union_right)]
  exact Finset.sum_le_sum fun g _ => min_le_right _ _

lemma matchingCount_self {β : Type} [DecidableEq β] (l : List β) :
    matchingCount l l = l.length := by
  rw [matchingCount]
  simp only [min_self]
  refine sum_count_of_subset l ((l ++ l).toFinset) ?_
  rw [List.toFinset_append]
  exact Finset.subset_union_left

lemma safeDiv_nonneg (num den : ℕ) : 0 ≤ safeDiv num den := by
  rw [safeDiv]
  split
  · exact le_refl 0
  · positivity

lemma safeDiv_le_one {num den : ℕ} (h : num ≤ den) : safeDiv num den ≤ 1 := by
  rw [safeDiv]
  split
  · norm_num
  · rename_i hden
    rw [div_le_one (by exact_mod_cast Nat.pos_of_ne_zero hden)]
    exact_mod_cast h

lemma min_safeDiv {m a b : ℕ} (ha : m ≤ a) (hb : m ≤ b) :
    min (safeDiv m a) (safeDiv m b) = safeDiv m (max a b) := by
  rcases Nat.eq_zero_or_pos m with rfl | hm
  · have hz : ∀ d : ℕ, safeDiv 0 d = 0 := fun d => by
      rw [safeDiv]; split <;> simp
    simp [hz]
  · have hapos : 0 < a := lt_of_lt_of_le hm ha
    have hbpos : 0 < b := lt_of_lt_of_le hm hb
    have hdiv : ∀ {x y : ℕ}, 0 < x → 0 < y → x ≤ y →
        safeDiv m y ≤ safeDiv m x := by
      intro x y hx hy hxy
      rw [safeDiv, safeDiv, if_neg hx.ne', if_neg hy.ne']
      have hx' : (0 : ℚ) < x := by exact_mod_cast hx
      have hxy' : (x : ℚ) ≤ y := by exact_mod_cast hxy
      gcongr

    rcases le_total a b with hab | hab
    · rw [max_eq_right hab, min_eq_right (hdiv hapos hbpos hab)]
    · rw [max_eq_left hab, min_eq_left (hdiv hbpos hapos hab)]

/-- The per-reference score `min (recall, precision)` collapses to a single
ratio with denominator `max (hyp_total, ref_total)`, the `total_count` of
section 3. -/
lemma refScore_eq_safeDiv (hypNg refNg : List (List α)) :
    refScore hypNg refNg =
      safeDiv (matchingCount hypNg refNg) (max hypNg.length refNg.length) := by
  rw [refScore,
    min_safeDiv (matchingCount_le_right hypNg refNg) (matchingCount_le_left hypNg refNg),
    max_comm]

lemma refScore_nonneg (hypNg refNg : List (List α)) : 0 ≤ refScore hypNg refNg :=
  le_min (safeDiv_nonneg _ _) (safeDiv_nonneg _ _)

lemma refScore_le_one (hypNg refNg : List (List α)) : refScore hypNg refNg ≤ 1 :=
  le_trans (min_le_right _ _) (safeDiv_le_one (matchingCount_le_left hypNg refNg))

/-- The max-by-key fold at the heart of `pickBest` returns an element of the
list that attains the maximal key. -/
lemma foldl_best_mem_le {β : Type} (f : β → ℚ) (xs : List β) (x : β) :
    xs.foldl (fun b y => if f b < f y then y else b) x ∈ x :: xs ∧
      ∀ y ∈ x :: xs, f y ≤ f (xs.foldl (fun b y => if f b < f y then y else b) x) := by
  induction xs generalizing x with
  | nil =>
    refine ⟨List.mem_cons_self _ _, ?_⟩
    intro y hy
    rcases List.mem_cons.mp hy with rfl | h
    · exact le_refl _
    · exact absurd h (List.not_mem_nil y)
  | cons z zs ih =>
    have key := ih (if f x < f z then z else x)
    have hw : (if f x < f z then z else x) = z ∨ (if f x < f z then z else x) = x := by
      split
      · exact Or.inl rfl
      · exact Or.inr rfl
    have hfx : f x ≤ f (if f x < f z then z else x) := by
      split
      · next h => exact le_of_lt h
      · exact le_refl _
    have hfz : f z ≤ f (if f x < f z then z else x) := by
      split
      · exact le_refl _
      · next h => exact le_of_not_lt h
    rw [List.foldl_cons]
    constructor
    · rcases List.mem_cons.mp key.1 with h | h
      · rw [h]
        rcases hw with hw2 | hw2 <;> rw [hw2]
        · exact List.mem_cons_of_mem _ (List.mem_cons_self _ _)
        · exact List.mem_cons_self _ _
      · exact List.mem_cons_of_mem _ (List.mem_cons_of_mem _ h)
    · intro y hy
      rcases List.mem_cons.mp hy with rfl | hy2
      · exact hfx.trans (key.2 _ (List.mem_cons_self _ _))
      · rcases List.mem_cons.mp hy2 with rfl | hy3
        · exact hfz.trans (key.2 _ (List.mem_cons_self _ _))
        · exact key.2 y (List.mem_cons_of_mem _ hy3)

/-- On a non-empty list `pickBest` succeeds and returns an element attaining
the maximal key (the first such element, by construction). -/
lemma pickBest_cons_spec {β : Type} (f : β → ℚ) (x : β) (xs : List β) :
    ∃ m, pickBest f (x :: xs) = some m ∧ m ∈ x :: xs ∧ ∀ y ∈ x :: xs, f y ≤ f m :=
  ⟨_, rfl, (foldl_best_mem_le f xs x).1, (foldl_best_mem_le f xs x).2⟩

lemma le_foldr_max (l : List ℚ) (q : ℚ) (h : q ∈ l) : q ≤ l.foldr max 0 := by
  induction l with
  | nil => exact absurd h (List.not_mem_nil q)
  | cons a as ih =>
    rw [List.foldr_cons]
    rcases List.mem_cons.mp h with rfl | h2
    · exact le_max_left _ _
    · exact (ih h2).trans (le_max_right _ _)

lemma foldr_max_le (l : List ℚ) (b : ℚ) (hb : 0 ≤ b) (h : ∀ q ∈ l, q ≤ b) :
    l.foldr max 0 ≤ b := by
  induction l with
  | nil => simpa using hb
  | cons a as ih =>
    rw [List.foldr_cons]
    exact max_le (h a (List.mem_cons_self _ _))
      (ih fun q hq => h q (List.mem_cons_of_mem _ hq))

/-- The corpus accumulator fold computes the two running sums `M` and `T` of
section 4.3. -/
lemma corpus_foldl (l : List (List α × List (List α))) (minl maxl : ℕ) (i : ℕ × ℕ) :
    l.foldl (fun MT pr =>
        (MT.1 + (pairCounts pr.2 pr.1 minl maxl).1,
         MT.2 + (pairCounts pr.2 pr.1 minl maxl).2)) i =
      (i.1 + (l.map fun pr => (pairCounts pr.2 pr.1 minl maxl).1).sum,
       i.2 + (l.map fun pr => (pairCounts pr.2 pr.1 minl maxl).2).sum) := by
  induction l generalizing i with
  | nil => simp
  | cons a as ih =>
    rw [List.foldl_cons, ih]
    simp [add_assoc]

/-- `corpus_gleu` in closed form: `M / T` over the zipped corpus, `0` when
`T = 0`. -/
lemma corpus_gleu_eq (list_of_references : List (List (List α)))
    (hypotheses : List (List α)) (minl maxl : ℕ) :
    corpus_gleu list_of_references hypotheses minl maxl =
      (if ((hypotheses.zip list_of_references).map
            fun pr => (pairCounts pr.2 pr.1 minl maxl).2).sum = 0 then 0
       else (((hypotheses.zip list_of_references).map
                fun pr => (pairCounts pr.2 pr.1 minl maxl).1).sum : ℚ) /
            (((hypotheses.zip list_of_references).map
                fun pr => (pairCounts pr.2 pr.1 minl maxl).2).sum : ℚ)) := by
  rw [show corpus_gleu list_of_references hypotheses minl maxl =
      (let acc := (hypotheses.zip list_of_references).foldl
        (fun MT pr =>
          (MT.1 + (pairCounts pr.2 pr.1 minl maxl).1,
           MT.2 + (pairCounts pr.2 pr.1 minl maxl).2)) ((0, 0) : ℕ × ℕ)
       if acc.2 = 0 then 0 else (acc.1 : ℚ) / acc.2) from rfl]
  rw [corpus_foldl]
  simp

lemma ngrams_length (s : List α) (n : ℕ) :
    (ngrams s n).length = s.length + 1 - n := by
  rw [ngrams, List.length_map, List.length_range]

/-- With `min_len = max_len = n` the extractor degenerates to the single
order `n`. -/
lemma everygrams_single (s : List α) (n : ℕ) : everygrams s n n = ngrams s n := by
  rw [everygrams, show n + 1 - n = 1 from by omega]
  simp [List.range']

/-- With `min_len = 1 ≤ max_len` the extractor keeps at least all unigrams. -/
lemma length_le_everygrams_length (s : List α) (maxl : ℕ) (h : 1 ≤ maxl) :
    s.length ≤ (everygrams s 1 maxl).length := by
  obtain ⟨k, rfl⟩ : ∃ k, maxl = k + 1 := ⟨maxl - 1, by omega⟩
  rw [everygrams, show k + 1 + 1 - 1 = k + 1 from by omega]
  simp only [List.range']
  rw [List.flatMap_cons, List.length_append, ngrams_length]
  omega

lemma sentence_gleu_nil (hyp : List α) (minl maxl : ℕ) :
    sentence_gleu [] hyp minl maxl = 0 := rfl

lemma sentence_gleu_nonneg (references : List (List α)) (hyp : List α)
    (minl maxl : ℕ) : 0 ≤ sentence_gleu references hyp minl maxl := by
  cases references with
  | nil => rw [sentence_gleu_nil]
  | cons x xs =>
    obtain ⟨m, hm, -, -⟩ := pickBest_cons_spec
      (fun r => refScore (everygrams hyp minl maxl) (everygrams r minl maxl)) x xs
    rw [sentence_gleu_eq, hm]
    exact refScore_nonneg _ _

lemma sentence_gleu_le_one (references : List (List α)) (hyp : List α)
    (minl maxl : ℕ) : sentence_gleu references hyp minl maxl ≤ 1 := by
  cases references with
  | nil => rw [sentence_gleu_nil]; norm_num
  | cons x xs =>
    obtain ⟨m, hm, -, -⟩ := pickBest_cons_spec
      (fun r => refScore (everygrams hyp minl maxl) (everygrams r minl maxl)) x xs
    rw [sentence_gleu_eq, hm]
    exact refScore_le_one _ _

lemma pairCounts_nil (hyp : List α) (minl maxl : ℕ) :
    pairCounts [] hyp minl maxl = (0, 0) := rfl

lemma pairCounts_fst_le_snd (references : List (List α)) (hyp : List α)
    (minl maxl : ℕ) :
    (pairCounts references hyp minl maxl).1 ≤ (pairCounts references hyp minl maxl).2 := by
  cases references with
  | nil => rw [pairCounts_nil]
  | cons x xs =>
    obtain ⟨m, hm, -, -⟩ := pickBest_cons_spec
      (fun r => refScore (everygrams hyp minl maxl) (everygrams r minl maxl)) x xs
    rw [pairCounts_eq, hm]
    exact le_trans (matchingCount_le_left _ _) (le_max_left _ _)

/-- Evaluation helper for concrete scores with equal hypothesis and reference
n-gram totals. -/
lemma refScore_eval {hypNg refNg : List (List ℕ)} {m c : ℕ}
    (hm : matchingCount hypNg refNg = m) (ha : refNg.length = c)
    (hb : hypNg.length = c) : refScore hypNg refNg = safeDiv m c := by
  rw [refScore, hm, ha, hb, min_self]

/-- C6: for every token sequence `s` and order `n ≥ 1`, the n-gram multiset
extracted with `min_len = max_len = n` has total count
`max (0, len s - n + 1)`; in particular a sequence shorter than `n`
contributes zero n-grams of that order without error. -/
theorem C6_ngram_total_count (s : List α) (n : ℕ) (h : 1 ≤ n) :
    ((everygrams s n n).length : ℤ) = max 0 ((s.length : ℤ) - n + 1) := by
  rw [everygrams_single, ngrams_length]
  rcases le_total n (s.length + 1) with hc | hc
  · rw [max_eq_right (by push_cast; omega)]
    push_cast
    omega
  · rw [max_eq_left (by push_cast; omega)]
    push_cast
    omega

theorem C6_witness :
    ((everygrams ([0, 1] : List ℕ) 3 3).length : ℤ) =
      max 0 ((([0, 1] : List ℕ).length : ℤ) - 3 + 1) :=
  C6_ngram_total_count [0, 1] 3 (by decide)

/-- C8: the sentence-level score of any non-empty sequence `s` against the
single-reference list `[s]` is exactly `1` (with `min_len = 1` and any
`max_len ≥ 1`, covering the default configuration). -/
theorem C8_identity (s : List α) (maxl : ℕ) (hs : s ≠ []) (hmax : 1 ≤ maxl) :
    sentence_gleu [s] s 1 maxl = 1 := by
  rw [sentence_gleu_singleton, refScore, min_self, matchingCount_self, safeDiv]
  have hlen : (everygrams s 1 maxl).length ≠ 0 := by
    have h1 := length_le_everygrams_length s maxl hmax
    have h2 : s.length ≠ 0 := by
      cases s with
      | nil => exact absurd rfl hs
      | cons a as => simp
    omega
  rw [if_neg hlen]
  exact div_self (Nat.cast_ne_zero.mpr hlen)

theorem C8_witness :
    sentence_gleu [["the", "cat"]] ["the", "cat"] 1 2 = 1 :=
  C8_identity ["the", "cat"] 2 (by simp) (by decide)

/-- C3 is refuted: a call with mismatched input lengths (1 vs 0) and
`min_len = 0 < 1` in sentence mode raises nothing and returns a result
(the claim demands an ArgumentError-kind failure). -/
theorem C3_counterexample :
    GoogleBleu_compute ([[0]] : List (List ℕ)) [] true 0 4 =
      Except.ok (Sum.inl []) ∧
    (GoogleBleu_compute ([[0]] : List (List ℕ)) [] true 0 4).isOk = true :=
  ⟨rfl, rfl⟩

/-- C3 (amended): `_compute` performs no validation and never raises:
mismatched lengths, `min_len > max_len` and `min_len < 1` all produce an
ordinary result (mismatched lists are zipped, out-of-order or zero n-gram
ranges just yield empty multisets). -/
theorem C3_amended_no_validation (predictions : List (List α))
    (references : List (List (List α))) (sentence_level : Bool)
    (minl maxl : ℕ) :
    (GoogleBleu_compute predictions references sentence_level minl maxl).isOk = true := by
  rw [GoogleBleu_compute]
  split <;> rfl

/-- C4: in sentence mode a length mismatch raises no error; the result is the
list of scores of the zipped pairs, of length `min (len predictions)
(len references)`, the excess elements of the longer list being ignored. -/
theorem C4_sentence_mode_zips (predictions : List (List α))
    (references : List (List (List α))) (minl maxl : ℕ)
    (h : predictions.length ≠ references.length) :
    GoogleBleu_compute predictions references true minl maxl =
      Except.ok (Sum.inl ((predictions.zip references).map fun pr =>
        sentence_gleu pr.2 pr.1 minl maxl)) ∧
    ((predictions.zip references).map fun pr =>
      sentence_gleu pr.2 pr.1 minl maxl).length =
        min predictions.length references.length := by
  refine ⟨rfl, ?_⟩
  rw [List.length_map, List.length_zip]

theorem C4_witness :
    GoogleBleu_compute ([[0]] : List (List ℕ)) [] true 1 4 =
      Except.ok (Sum.inl ((([[0]] : List (List ℕ)).zip
        ([] : List (List (List ℕ)))).map fun pr =>
          sentence_gleu pr.2 pr.1 1 4)) ∧
    ((([[0]] : List (List ℕ)).zip ([] : List (List (List ℕ)))).map
      fun pr => sentence_gleu pr.2 pr.1 1 4).length =
        min ([[0]] : List (List ℕ)).length ([] : List (List (List ℕ))).length :=
  C4_sentence_mode_zips [[0]] [] 1 4 (by decide)

/-- C5: corpus mode on a one-pair corpus agrees with the sentence-level score
of that pair; accordingly `_compute` in corpus mode on the singleton corpus
returns exactly the sentence score.  The key fact is
`min (m / ref_total, m / hyp_total) = m / max (hyp_total, ref_total)`. -/
theorem C5_corpus_singleton_eq_sentence (references : List (List α))
    (hypothesis : List α) (minl maxl : ℕ) :
    corpus_gleu [references] [hypothesis] minl maxl =
      sentence_gleu references hypothesis minl maxl ∧
    GoogleBleu_compute [hypothesis] [references] false minl maxl =
      Except.ok (Sum.inr (sentence_gleu references hypothesis minl maxl)) := by
  have hmain : corpus_gleu [references] [hypothesis] minl maxl =
      sentence_gleu references hypothesis minl maxl := by
    rw [corpus_gleu_eq]
    simp only [List.zip_cons_cons, List.zip_nil_right, List.map_cons,
      List.map_nil, List.sum_cons, List.sum_nil, Nat.add_zero]
    cases references with
    | nil =>
      rw [pairCounts_nil, sentence_gleu_nil]
      norm_num
    | cons x xs =>
      obtain ⟨m, hm, hmem, hmax⟩ := pickBest_cons_spec
        (fun r => refScore (everygrams hypothesis minl maxl)
          (everygrams r minl maxl)) x xs
      rw [pairCounts_eq, sentence_gleu_eq]
      simp only [hm]
      rw [refScore_eq_safeDiv, safeDiv]
  refine ⟨hmain, ?_⟩
  rw [show GoogleBleu_compute [hypothesis] [references] false minl maxl =
      Except.ok (Sum.inr (corpus_gleu [references] [hypothesis] minl maxl)) from rfl,
    hmain]

/-- C1: for a non-empty reference list and `1 ≤ min_len ≤ max_len`, the
sentence score is the maximum over the references of
`min (recall, precision)` with `matching_count = sum of min-counts`,
`recall = matching_count / ref_total`, `precision = matching_count /
hyp_total`, and ratios with zero denominator treated as `0`
(`specSentenceScore` states that closed form verbatim). -/
theorem C1_sentence_score_is_max_min (references : List (List α))
    (hypothesis : List α) (minl maxl : ℕ) (hne : references ≠ [])
    (hminlen : 1 ≤ minl) (hmaxlen : minl ≤ maxl) :
    sentence_gleu references hypothesis minl maxl =
      specSentenceScore references hypothesis minl maxl := by
  obtain ⟨x, xs, rfl⟩ : ∃ y ys, references = y :: ys := by
    cases references with
    | nil => exact absurd rfl hne
    | cons a as => exact ⟨a, as, rfl⟩
  obtain ⟨m, hm, hmem, hbest⟩ := pickBest_cons_spec
    (fun r => refScore (everygrams hypothesis minl maxl)
      (everygrams r minl maxl)) x xs
  rw [sentence_gleu_eq, hm, specSentenceScore]
  apply le_antisymm
  · exact le_foldr_max _ _ (List.mem_map_of_mem _ hmem)
  · refine foldr_max_le _ _ (refScore_nonneg _ _) ?_
    intro q hq
    obtain ⟨r, hr, rfl⟩ := List.mem_map.mp hq
    exact hbest r hr

theorem C1_witness :
    sentence_gleu ([[0]] : List (List ℕ)) [0] 1 1 =
      specSentenceScore ([[0]] : List (List ℕ)) [0] 1 1 :=
  C1_sentence_score_is_max_min [[0]] [0] 1 1 (by simp) (by decide) (by decide)

/-- C2: in corpus mode (parallel lists, non-empty reference lists) the score
is `M / T` (`0` when `T = 0`) where `M` and `T` sum, over the zipped pairs,
the `matching_count` and the `total_count = max (hyp_total, ref_total)` of a
best reference of that pair, i.e. one maximising `min (recall, precision)`
over the pair's references. -/
theorem C2_corpus_aggregation (predictions : List (List α))
    (references : List (List (List α))) (minl maxl : ℕ)
    (hlen : predictions.length = references.length)
    (hne : ∀ rs ∈ references, rs ≠ []) :
    (corpus_gleu references predictions minl maxl =
      if ((predictions.zip references).map
            fun pr => (pairCounts pr.2 pr.1 minl maxl).2).sum = 0 then 0
      else (((predictions.zip references).map
              fun pr => (pairCounts pr.2 pr.1 minl maxl).1).sum : ℚ) /
           (((predictions.zip references).map
              fun pr => (pairCounts pr.2 pr.1 minl maxl).2).sum : ℚ)) ∧
    ∀ pr ∈ predictions.zip references, ∃ r ∈ pr.2,
      pairCounts pr.2 pr.1 minl maxl =
        (matchingCount (everygrams pr.1 minl maxl) (everygrams r minl maxl),
         max (everygrams pr.1 minl maxl).length (everygrams r minl maxl).length) ∧
      ∀ q ∈ pr.2, refScore (everygrams pr.1 minl maxl) (everygrams q minl maxl) ≤
        refScore (everygrams pr.1 minl maxl) (everygrams r minl maxl) := by
  constructor
  · exact corpus_gleu_eq references predictions minl maxl
  · intro pr hpr
    have hr2 : pr.2 ∈ references := (List.of_mem_zip hpr).2
    obtain ⟨y, ys, hy⟩ : ∃ y ys, pr.2 = y :: ys := by
      cases h2 : pr.2 with
      | nil => exact absurd h2 (hne pr.2 hr2)
      | cons a as => exact ⟨a, as, rfl⟩
    obtain ⟨m, hm, hmem, hbest⟩ := pickBest_cons_spec
      (fun r => refScore (everygrams pr.1 minl maxl) (everygrams r minl maxl)) y ys
    refine ⟨m, by rw [hy]; exact hmem, ?_, ?_⟩
    · rw [hy, pairCounts_eq]
      simp only [hm]
    · intro q hq
      rw [hy] at hq
      exact hbest q hq

theorem C2_witness :
    (corpus_gleu ([[[0]]] : List (List (List ℕ))) [[0]] 1 1 =
      if ((([[0]] : List (List ℕ)).zip ([[[0]]] : List (List (List ℕ)))).map
            fun pr => (pairCounts pr.2 pr.1 1 1).2).sum = 0 then 0
      else (((([[0]] : List (List ℕ)).zip ([[[0]]] : List (List (List ℕ)))).map
              fun pr => (pairCounts pr.2 pr.1 1 1).1).sum : ℚ) /
           (((([[0]] : List (List ℕ)).zip ([[[0]]] : List (List (List ℕ)))).map
              fun pr => (pairCounts pr.2 pr.1 1 1).2).sum : ℚ)) ∧
    ∀ pr ∈ ([[0]] : List (List ℕ)).zip ([[[0]]] : List (List (List ℕ))),
      ∃ r ∈ pr.2,
      pairCounts pr.2 pr.1 1 1 =
        (matchingCount (everygrams pr.1 1 1) (everygrams r 1 1),
         max (everygrams pr.1 1 1).length (everygrams r 1 1).length) ∧
      ∀ q ∈ pr.2, refScore (everygrams pr.1 1 1) (everygrams q 1 1) ≤
        refScore (everygrams pr.1 1 1) (everygrams r 1 1) :=
  C2_corpus_aggregation [[0]] [[[0]]] 1 1 (by decide) (by decide)

/-- C7: for valid parameters every produced score, sentence-level or
corpus-level, lies in the closed interval `[0, 1]`. -/
theorem C7_scores_bounded (predictions : List (List α))
    (references : List (List (List α))) (minl maxl : ℕ)
    (hminlen : 1 ≤ minl) (hmaxlen : minl ≤ maxl) :
    (∀ q ∈ (predictions.zip references).map
        (fun pr => sentence_gleu pr.2 pr.1 minl maxl), 0 ≤ q ∧ q ≤ 1) ∧
    0 ≤ corpus_gleu references predictions minl maxl ∧
    corpus_gleu references predictions minl maxl ≤ 1 := by
  refine ⟨?_, ?_, ?_⟩
  · intro q hq
    obtain ⟨pr, hpr, rfl⟩ := List.mem_map.mp hq
    exact ⟨sentence_gleu_nonneg _ _ _ _, sentence_gleu_le_one _ _ _ _⟩
  · rw [corpus_gleu_eq]
    split
    · exact le_refl 0
    · positivity
  · rw [corpus_gleu_eq]
    split
    · norm_num
    · rename_i hT
      rw [div_le_one (by exact_mod_cast Nat.pos_of_ne_zero hT)]
      have hMT : ((predictions.zip references).map
            fun pr => (pairCounts pr.2 pr.1 minl maxl).1).sum ≤
          ((predictions.zip references).map
            fun pr => (pairCounts pr.2 pr.1 minl maxl).2).sum :=
        List.sum_le_sum fun pr _ => pairCounts_fst_le_snd _ _ _ _
      exact_mod_cast hMT

theorem C7_witness :
    (∀ q ∈ (([[0]] : List (List ℕ)).zip ([[[0]]] : List (List (List ℕ)))).map
        (fun pr => sentence_gleu pr.2 pr.1 1 1), 0 ≤ q ∧ q ≤ 1) ∧
    0 ≤ corpus_gleu ([[[0]]] : List (List (List ℕ))) [[0]] 1 1 ∧
    corpus_gleu ([[[0]]] : List (List (List ℕ))) [[0]] 1 1 ≤ 1 :=
  C7_scores_bounded [[0]] [[[0]]] 1 1 (by decide) (by decide)

/-- C9 is refuted: for hypothesis `[0, 1, 0]` and reference `[1, 0, 1]` with
`min_len = 1`, raising `max_len` from `1` to `2` raises the score from
`2 / 3` to `4 / 5` (the bigram layer matches perfectly while the unigram
layer does not), so the sentence score is not antitone in `max_len`. -/
theorem C9_counterexample :
    ¬ (sentence_gleu ([[1, 0, 1]] : List (List ℕ)) [0, 1, 0] 1 2 ≤
       sentence_gleu ([[1, 0, 1]] : List (List ℕ)) [0, 1, 0] 1 1) := by
  rw [sentence_gleu_singleton, sentence_gleu_singleton,
    refScore_eval (show matchingCount (everygrams ([0, 1, 0] : List ℕ) 1 2)
        (everygrams [1, 0, 1] 1 2) = 4 from by decide)
      (show (everygrams ([1, 0, 1] : List ℕ) 1 2).length = 5 from by decide)
      (show (everygrams ([0, 1, 0] : List ℕ) 1 2).length = 5 from by decide),
    refScore_eval (show matchingCount (everygrams ([0, 1, 0] : List ℕ) 1 1)
        (everygrams [1, 0, 1] 1 1) = 2 from by decide)
      (show (everygrams ([1, 0, 1] : List ℕ) 1 1).length = 3 from by decide)
      (show (everygrams ([0, 1, 0] : List ℕ) 1 1).length = 3 from by decide)]
  simp only [safeDiv]
  norm_num

/-- C9 (amended): the sentence score need not be antitone in `max_len` (see
the counterexample); on the example pair hypothesis `[0, 1, 2]`, reference
`[2, 0, 1]` with `min_len = 1` it does decrease monotonically as `max_len`
grows through `1, 2, 3, 4`. -/
theorem C9_amended_antitone_on_example :
    sentence_gleu ([[2, 0, 1]] : List (List ℕ)) [0, 1, 2] 1 2 ≤
      sentence_gleu ([[2, 0, 1]] : List (List ℕ)) [0, 1, 2] 1 1 ∧
    sentence_gleu ([[2, 0, 1]] : List (List ℕ)) [0, 1, 2] 1 3 ≤
      sentence_gleu ([[2, 0, 1]] : List (List ℕ)) [0, 1, 2] 1 2 ∧
    sentence_gleu ([[2, 0, 1]] : List (List ℕ)) [0, 1, 2] 1 4 ≤
      sentence_gleu ([[2, 0, 1]] : List (List ℕ)) [0, 1, 2] 1 3 := by
  rw [sentence_gleu_singleton, sentence_gleu_singleton,
    sentence_gleu_singleton, sentence_gleu_singleton,
    refScore_eval (show matchingCount (everygrams ([0, 1, 2] : List ℕ) 1 1)
        (everygrams [2, 0, 1] 1 1) = 3 from by decide)
      (show (everygrams ([2, 0, 1] : List ℕ) 1 1).length = 3 from by decide)
      (show (everygrams ([0, 1, 2] : List ℕ) 1 1).length = 3 from by decide),
    refScore_eval (show matchingCount (everygrams ([0, 1, 2] : List ℕ) 1 2)
        (everygrams [2, 0, 1] 1 2) = 4 from by decide)
      (show (everygrams ([2, 0, 1] : List ℕ) 1 2).length = 5 from by decide)
      (show (everygrams ([0, 1, 2] : List ℕ) 1 2).length = 5 from by decide),
    refScore_eval (show matchingCount (everygrams ([0, 1, 2] : List ℕ) 1 3)
        (everygrams [2, 0, 1] 1 3) = 4 from by decide)
      (show (everygrams ([2, 0, 1] : List ℕ) 1 3).length = 6 from by decide)
      (show (everygrams ([0, 1, 2] : List ℕ) 1 3).length = 6 from by decide),
    refScore_eval (show matchingCount (everygrams ([0, 1, 2] : List ℕ) 1 4)
        (everygrams [2, 0, 1] 1 4) = 4 from by decide)
      (show (everygrams ([2, 0, 1] : List ℕ) 1 4).length = 6 from by decide)
      (show (everygrams ([0, 1, 2] : List ℕ) 1 4).length = 6 from by decide)]
  simp only [safeDiv]
  norm_num

/-- C10: a two-pair corpus with sentences of different lengths on which the
corpus-level score (`2 / 3`) differs from the arithmetic mean of the two
sentence-level scores (`(1 + 1 / 2) / 2 = 3 / 4`): corpus aggregation is not
the mean of sentence scores. -/
theorem C10_corpus_not_mean :
    corpus_gleu ([[[0]], [[1, 3]]] : List (List (List ℕ))) [[0], [1, 2]] 1 1 ≠
      (sentence_gleu ([[0]] : List (List ℕ)) [0] 1 1 +
       sentence_gleu ([[1, 3]] : List (List ℕ)) [1, 2] 1 1) / 2 := by
  have hc : corpus_gleu ([[[0]], [[1, 3]]] : List (List (List ℕ)))
      [[0], [1, 2]] 1 1 = safeDiv 2 3 := rfl
  rw [hc, sentence_gleu_singleton, sentence_gleu_singleton,
    refScore_eval (show matchingCount (everygrams ([0] : List ℕ) 1 1)
        (everygrams [0] 1 1) = 1 from by decide)
      (show (everygrams ([0] : List ℕ) 1 1).length = 1 from by decide)
      (show (everygrams ([0] : List ℕ) 1 1).length = 1 from by decide),
    refScore_eval (show matchingCount (everygrams ([1, 2] : List ℕ) 1 1)
        (everygrams [1, 3] 1 1) = 1 from by decide)
      (show (everygrams ([1, 3] : List ℕ) 1 1).length = 2 from by decide)
      (show (everygrams ([1, 2] : List ℕ) 1 1).length = 2 from by decide)]
  simp only [safeDiv]
  norm_num
